import Mathlib

/-!
Verification development for the pe32me162irpy repository.

The Python sources are shallowly embedded: byte strings become `List Nat`,
Python ints become `Int` (with `Int.fdiv` for Python's floor division `//`),
Python floats become `Rat`, and fallible functions return `Option`/`Except`.
-/

namespace Pe32


/-! ## ctrlcode.py : control-character constants -/

def SOH : Nat := 1

def STX : Nat := 2

def ETX : Nat := 3

def EOT : Nat := 4

def ACK : Nat := 6

def LF : Nat := 10

def CR : Nat := 13

def NAK : Nat := 21

/-! ## din66219.py : BCC codec

`append_bcc` and `check_bcc` both scan with an iterator: a first loop
consumes bytes up to and including the first SOH/STX (remembering the last
consumed byte in `ch` and the consumed count in `cnt`), a second loop XORs
the remaining bytes into `bcc` (in `check_bcc` it additionally breaks at the
first ETX/EOT).  We model each loop as a tail-recursive function on the
remaining list, threading the `cnt`/`bcc`/`ch` accumulators explicitly.
`ch = none` models Python's initial `ch = None`.
-/

def isOpener (b : Nat) : Bool := b = SOH ∨ b = STX

def isCloser (b : Nat) : Bool := b = ETX ∨ b = EOT

/-- Python `ch not in (ETX, EOT)` is `¬ chIsCloser ch`: `None` compares
unequal to every `Char`. -/

def chIsCloser : Option Nat → Bool
  | none => false
  | some b => isCloser b

/-- First loop of `append_bcc`/`check_bcc`: `for ch in it: cnt += 1;
if ch in (SOH, STX): break`. Returns the updated `(cnt, ch, rest)`. -/

def scanToOpener : Nat → Option Nat → List Nat → Nat × Option Nat × List Nat
  | cnt, ch, [] => (cnt, ch, [])
  | cnt, _, b :: rest =>
      if isOpener b then (cnt + 1, some b, rest)
      else scanToOpener (cnt + 1) (some b) rest

/-- Second loop of `append_bcc`: `for ch in it: cnt += 1; bcc ^= ch`
(the `break` on ETX/EOT is commented out in the source). -/

def xorAll : Nat → Nat → Option Nat → List Nat → Nat × Nat × Option Nat
  | cnt, bcc, ch, [] => (cnt, bcc, ch)
  | cnt, bcc, _, b :: rest => xorAll (cnt + 1) (bcc ^^^ b) (some b) rest

/-- Second loop of `check_bcc`: like `xorAll` but breaks after XOR-ing the
first ETX/EOT; also returns the unconsumed rest of the iterator. -/

def xorToCloser : Nat → Nat → Option Nat → List Nat →
    Nat × Nat × Option Nat × List Nat
  | cnt, bcc, ch, [] => (cnt, bcc, ch, [])
  | cnt, bcc, _, b :: rest =>
      if isCloser b then (cnt + 1, bcc ^^^ b, some b, rest)
      else xorToCloser (cnt + 1) (bcc ^^^ b) (some b) rest

/-- `din66219.append_bcc`: returns `none` where Python raises `ValueError`. -/

def append_bcc (bstr : List Nat) : Option (List Nat) :=
  let s := scanToOpener 0 none bstr
  let x := xorAll s.1 0 s.2.1 s.2.2
  if x.1 ≠ bstr.length ∨ ¬ chIsCloser x.2.2 then none
  else some (bstr ++ [x.2.1])

inductive BccError
  /-- `expected ETX/EOT at end` / `expected $BCC at end` -/
  | malformed
  /-- `$BCC mismatch` -/
  | bccMismatch
  /-- `next(it)` on an exhausted iterator (unreachable in practice) -/
  | stopIteration
deriving DecidableEq, Repr

/-- `din66219.check_bcc`: returns `.ok ()` where Python returns normally. -/

def check_bcc (bstr : List Nat) : Except BccError Unit :=
  let s := scanToOpener 0 none bstr
  let x := xorToCloser s.1 0 s.2.1 s.2.2
  if ¬ chIsCloser x.2.2.1 then .error .malformed
  else if x.1 ≠ bstr.length - 1 then .error .malformed
  else
    match x.2.2.2 with
    | [] => .error .stopIteration
    | b :: _ => if b ≠ x.2.1 then .error .bccMismatch else .ok ()

/-- `check_bcc (append_bcc f)` composed through `Option`. -/

def bccRoundTrip (bstr : List Nat) : Option (Except BccError Unit) :=
  (append_bcc bstr).map check_bcc

/-! ## wattgauge.py : WattGauge

State of a `WattGauge`.  `self._t` / `self._p` are three-element lists in
the source, modelled as six fields.  Python creates the `_data_valid`
attribute lazily on the first sample; we model the attribute's
presence/absence as a `Bool` that starts out `false`.  Times (ms) and
energies (Wh) are Python ints, modelled as `Int`; Python's floor division
`//` becomes `Int.fdiv`.
-/

structure WattGauge where
  t0 : Int
  t1 : Int
  t2 : Int
  p0 : Int
  p1 : Int
  p2 : Int
  tlast : Int
  watt : Int
  data_valid : Bool
deriving DecidableEq, Repr

/-- `WattGauge.__init__`: everything zero, `_data_valid` not yet set. -/

def WattGauge.init : WattGauge :=
  { t0 := 0, t1 := 0, t2 := 0, p0 := 0, p1 := 0, p2 := 0,
    tlast := 0, watt := 0, data_valid := false }

def WattGauge.get_active_energy_total (g : WattGauge) : Int := g.p2

def WattGauge.get_instantaneous_power (g : WattGauge) : Int := g.watt

def WattGauge.interval_since_last_change (g : WattGauge) : Int :=
  g.tlast - g.t2

def WattGauge.tdelta (g : WattGauge) : Int := g.t2 - g.t0

def WattGauge.pdelta (g : WattGauge) : Int := g.p2 - g.p0

/-- `WattGauge._there_are_enough_values`. -/

def WattGauge.there_are_enough_values (g : WattGauge) : Bool :=
  (g.tdelta ≥ 20000 ∧ g.pdelta ≥ 6) ∨
  (g.tdelta ≥ 50000 ∧ g.pdelta ≥ 2) ∨
  (g.tdelta ≥ 300000)

/-- `WattGauge.reset`. -/

def WattGauge.reset (g : WattGauge) : WattGauge :=
  if g.there_are_enough_values then
    { g with t0 := g.t1, p0 := g.p1, t1 := g.t2, p1 := g.p2 }
  else g

/-- `WattGauge._recalculate_if_sensible`. -/

def WattGauge.recalculate_if_sensible (g : WattGauge) : WattGauge :=
  if g.there_are_enough_values then
    { g with watt := Int.fdiv (g.pdelta * 1000 * 3600) g.tdelta }
  else if g.tlast - g.t0 > 300000 then
    { g with watt := 0 }
  else g

/-- The ring-advance step of `set_active_energy_total` (lines 87-96:
"Set first change" / "Update next to last change"). -/

def WattGauge.ringAdvance (g : WattGauge) (time_ms current_wh : Int) :
    WattGauge :=
  if g.t0 = g.t1 then
    { g with t1 := time_ms, t2 := time_ms, p1 := current_wh, p2 := current_wh }
  else
    { g with t1 := g.t2, p1 := g.p2, t2 := time_ms, p2 := current_wh }

/-- The spike-reset heuristic's condition (lines 103-105). -/

def WattGauge.spikeCondition (g : WattGauge) : Bool :=
  g.t1 - g.t0 > 60000 ∧ g.p1 - g.p0 ≤ 1 ∧ g.t2 - g.t1 < 15000

/-- `WattGauge.set_active_energy_total`. -/

def WattGauge.set_active_energy_total (g : WattGauge)
    (time_ms current_wh : Int) : WattGauge :=
  let g := { g with tlast := time_ms }
  if g.data_valid = false then
    -- Happens only once after construction
    { g with t0 := time_ms, t1 := time_ms, t2 := time_ms,
             p0 := current_wh, p1 := current_wh, p2 := current_wh,
             watt := 0, data_valid := true }
  else if current_wh = g.p2 then
    -- No change; maybe lower the estimate after >30 s of silence
    if g.tlast - g.t2 > 30000 then
      let possible_watt := Int.fdiv (1000 * 3600) (g.tlast - g.t2)
      if possible_watt < g.watt then { g with watt := possible_watt } else g
    else g
  else
    let g := g.ringAdvance time_ms current_wh
    let g := if g.spikeCondition then g.reset else g
    g.recalculate_if_sensible

/-! ## wattgauge.py : EnergyGauge -/

structure EnergyGauge where
  positive : WattGauge
  negative : WattGauge
  wprev : Int
deriving DecidableEq, Repr

/-- `EnergyGauge.__init__`. -/

def EnergyGauge.init : EnergyGauge :=
  { positive := WattGauge.init, negative := WattGauge.init, wprev := 0 }

def EnergyGauge.get_positive_active_energy_total (eg : EnergyGauge) : Int :=
  eg.positive.get_active_energy_total

def EnergyGauge.get_negative_active_energy_total (eg : EnergyGauge) : Int :=
  eg.negative.get_active_energy_total

/-- `EnergyGauge.get_instantaneous_power`. -/

def EnergyGauge.get_instantaneous_power (eg : EnergyGauge) : Int :=
  if eg.positive.interval_since_last_change <
      eg.negative.interval_since_last_change then
    eg.positive.get_instantaneous_power
  else
    - eg.negative.get_instantaneous_power

/-- `EnergyGauge.has_significant_change`.  The Python `float` division is
modelled exactly over `Rat` (`0.6` and `1.6` are the rationals 3/5 and
8/5). -/

def EnergyGauge.has_significant_change (eg : EnergyGauge) : Bool :=
  let watt := eg.get_instantaneous_power
  let wprev := eg.wprev
  if (wprev < 0 ∧ watt > 0) ∨ (watt < 0 ∧ wprev > 0) then
    true     -- sign change is significant
  else if wprev = 0 ∧ (-20 < watt ∧ watt < 20) then
    false    -- fluctuating around 0 is not significant
  else if wprev = 0 then
    true     -- otherwise a change from 0 is significant
  else
    let factor : Rat := (watt : Rat) / (wprev : Rat)
    if (0.6 : Rat) < factor ∧ factor < (1.6 : Rat) then
      false  -- change factor is small
    else
      true   -- yes, significant

def EnergyGauge.set_positive_active_energy_total (eg : EnergyGauge)
    (time_ms current_wh : Int) : EnergyGauge :=
  { eg with positive := eg.positive.set_active_energy_total time_ms current_wh }

def EnergyGauge.set_negative_active_energy_total (eg : EnergyGauge)
    (time_ms current_wh : Int) : EnergyGauge :=
  { eg with negative := eg.negative.set_active_energy_total time_ms current_wh }

/-- `EnergyGauge.reset`: `wprev` is captured from the gauges *before* they
are reset, matching the statement order in the source. -/

def EnergyGauge.reset (eg : EnergyGauge) : EnergyGauge :=
  { wprev := eg.get_instantaneous_power,
    positive := eg.positive.reset,
    negative := eg.negative.reset }

inductive GaugeOp
  | sample (t p : Int)
  | reset
deriving DecidableEq, Repr

def WattGauge.runOps (g : WattGauge) : List GaugeOp → WattGauge
  | [] => g
  | .sample t p :: rest => (g.set_active_energy_total t p).runOps rest
  | .reset :: rest => g.reset.runOps rest

def legalFrom : Option (Int × Int) → List GaugeOp → Bool
  | _, [] => true
  | prev, .reset :: rest => legalFrom prev rest
  | none, .sample t p :: rest => legalFrom (some (t, p)) rest
  | some tp, .sample t p :: rest =>
      decide (tp.1 ≤ t) && decide (tp.2 ≤ p) && legalFrom (some (t, p)) rest

def WattGauge.ringOrdered (g : WattGauge) : Prop :=
  g.t0 ≤ g.t1 ∧ g.t1 ≤ g.t2 ∧ g.t2 ≤ g.tlast ∧ g.p0 ≤ g.p1 ∧ g.p1 ≤ g.p2

instance (g : WattGauge) : Decidable g.ringOrdered := by
  unfold WattGauge.ringOrdered
  infer_instance

/-- The significant-change rule exactly as the specification words it,
as a function of `wprev` and the current `watt`
(for comparison with `EnergyGauge.has_significant_change`). -/

def sigChangeSpecRule (wprev watt : Int) : Bool :=
  if (wprev < 0 ∧ watt > 0) ∨ (wprev > 0 ∧ watt < 0) then true
  else if wprev = 0 ∧ |watt| < 20 then false
  else if wprev = 0 then true
  else
    decide ¬((0.6 : Rat) < (watt : Rat) / (wprev : Rat) ∧
      (watt : Rat) / (wprev : Rat) < (1.6 : Rat))

/-! ## pe32me162irpy_pub.py : IskraMe162ValueProcessor -/

/-- `IskraMe162ValueProcessor.is_time_to_publish`.  The lazily created
`_last_publish` attribute is an `Option`: `none` until the first successful
publish.  `int(time.time() - self._last_publish)` is modelled as integer
seconds `now_s - lp` (the sub-second truncation is immaterial here). -/

def is_time_to_publish (last_publish : Option Int) (now_s : Int)
    (gauge : EnergyGauge) : Bool :=
  let tdelta_s : Int :=
    match last_publish with
    | none => 30
    | some lp => now_s - lp
  let inst_pwr := gauge.get_instantaneous_power
  (tdelta_s ≥ 120) ∨
  (tdelta_s ≥ 60 ∧ |inst_pwr| ≥ 400) ∨
  (tdelta_s ≥ 25 ∧ gauge.has_significant_change = true)

/-! ## obis.py : OBIS identifier classification

OBIS codes are strings; since kernel reduction of `String.splitOn` is not
available we model them as `List Char` with a faithful single-character
`str.split`.  Parsed C/D groups are ints when the group is all digits
(`int(c) if c.isdigit() else c`), otherwise the original string.
-/

/-- Python `s.split(sep)` for a single-character separator: split on every
occurrence, keeping empty parts. -/

def pySplitAux (sep : Char) : List Char → List Char → List (List Char)
  | cur, [] => [cur.reverse]
  | cur, c :: rest =>
      if c = sep then cur.reverse :: pySplitAux sep [] rest
      else pySplitAux sep (c :: cur) rest

def pySplit (sep : Char) (l : List Char) : List (List Char) :=
  pySplitAux sep [] l

/-- Python `str.isdigit` (ASCII digits): nonempty and all digits. -/

def pyIsDigit (l : List Char) : Bool := ¬ l.isEmpty ∧ l.all Char.isDigit

def digitsToNat (l : List Char) : Nat :=
  l.foldl (fun a c => 10 * a + (c.toNat - 48)) 0

/-- Python `int(s)` for the forms relevant here: an optional sign followed
by decimal digits (underscore/whitespace forms do not occur in OBIS
codes). -/

def pyInt : List Char → Option Int
  | [] => none
  | '-' :: rest =>
      if ¬ rest.isEmpty ∧ rest.all Char.isDigit then
        some (-(digitsToNat rest : Int))
      else none
  | '+' :: rest =>
      if ¬ rest.isEmpty ∧ rest.all Char.isDigit then
        some (digitsToNat rest : Int)
      else none
  | l =>
      if l.all Char.isDigit then some (digitsToNat l : Int) else none

/-- A C or D group: an int when all digits, else the raw string. -/

inductive ObisGroup
  | num (n : Nat)
  | str (s : List Char)
deriving DecidableEq, Repr

def toGroup (l : List Char) : ObisGroup :=
  if pyIsDigit l then ObisGroup.num (digitsToNat l) else ObisGroup.str l

structure ParsedObis where
  c : ObisGroup
  d : ObisGroup
  e : Int
  f : Option Int
deriving DecidableEq, Repr

/-- The `try:` block of `ElectricityObis.from_code` (after the `"F.F"`
normalisation): `c, d, e = code.split('.')` (exactly three parts or
`ValueError`), digit groups to ints, and an optional `*F` tail on the E
group.  `none` is the `ValueError` → `NotImplementedError('cannot parse')`
path. -/

def parseObisCode (code : List Char) : Option ParsedObis :=
  match pySplit '.' code with
  | [cs, ds, es] =>
    let c := toGroup cs
    let d := toGroup ds
    if es.contains '*' then
      match pySplit '*' es with
      | [es1, fs] =>
        match pyInt es1, pyInt fs with
        | some e, some f => some ⟨c, d, e, some f⟩
        | _, _ => none
      | _ => none
    else
      match pyInt es with
      | some e => some ⟨c, d, e, none⟩
      | _ => none
  | _ => none

/-- `if code == 'F.F': code = 'F.F.0'` (ISKRA ME162 quirk). -/

def obisNormalize (code : List Char) : List Char :=
  if code = "F.F".toList then "F.F.0".toList else code

inductive ObisVariant
  | activeEnergy (c d : ObisGroup) (e : Int) (f : Option Int)
  | instPower (c d : ObisGroup) (e : Int) (f : Option Int)
  | misc (c d : ObisGroup) (e : Int) (f : Option Int)
deriving DecidableEq, Repr

inductive ObisError
  /-- `NotImplementedError` (cannot parse / unknown code) -/
  | unsupportedObis
  /-- a failed `assert` in a variant's `__init__` -/
  | assertionError
deriving DecidableEq, Repr

/-- The class-level `unit` attribute of each variant. -/

def unitOf : ObisVariant → Option (List Char)
  | .activeEnergy _ _ _ _ => some "Wh".toList
  | .instPower _ _ _ _ => some "W".toList
  | .misc _ _ _ _ => none

/-- `c in (1, 2, 15, 16)`. -/

def isEnergyC (c : ObisGroup) : Bool :=
  c = .num 1 ∨ c = .num 2 ∨ c = .num 15 ∨ c = .num 16

/-- `ElectricityObis.from_code`.  The branch structure follows the source;
constructing `InstantaneousPowerElectricityObis` runs
`assert self.d == 7 and self.e == 0`, so when D = 7 and E ≠ 0 the call
raises `AssertionError` (modelled as `.error .assertionError`).
`ActiveEnergyElectricityObis.__init__`'s `assert self.d == 8` and its
`{1, 2, 15, 16}` description lookup always succeed in their branch, as does
`MiscObis`. -/

def from_code (code0 : List Char) : Except ObisError ObisVariant :=
  let code := obisNormalize code0
  match parseObisCode code with
  | none => .error .unsupportedObis
  | some p =>
    if isEnergyC p.c ∧ p.d = .num 8 then
      .ok (.activeEnergy p.c p.d p.e p.f)
    else if isEnergyC p.c ∧ p.d = .num 7 then
      if p.e = 0 then .ok (.instPower p.c p.d p.e p.f)
      else .error .assertionError
    else if p.f = none ∧ (p.c = .num 0 ∨ code = "C.1.0".toList ∨
        code = "F.F.0".toList) then
      .ok (.misc p.c p.d p.e p.f)
    else .error .unsupportedObis

deriving instance DecidableEq for Except

/-! ## pe32me162irpy_pub.py : Iec6205621CClient.recv_datamessage

After assembling a complete ETX/EOT-terminated frame plus its trailing BCC
byte, `recv_datamessage` runs `check_bcc(buf)`.  On `ValueError` it
executes `assert False, 'en nu??'` — the NAK reply named in the adjacent
`XXX: send NAK (=resend)` comment is not implemented, so the coroutine
raises `AssertionError` (which propagates out of `loop`).  A frame that
passed the check but ends in EOT hits the other `assert False`.  We model
this post-assembly step. -/

inductive RecvOutcome
  | okFrame (buf : List Nat)
  /-- an `assert False` was reached: the coroutine raises `AssertionError` -/
  | assertionFailure
deriving DecidableEq, Repr

def recv_datamessage_postcheck (buf : List Nat) : RecvOutcome :=
  match check_bcc buf with
  | .error _ => .assertionFailure
  | .ok _ =>
      if buf.getD (buf.length - 2) 0 = EOT then .assertionFailure
      else .okFrame buf

/-! ## serialproxy.py : SerialPty baud-rate emulation

The write-scheduling state of one pseudo-terminal endpoint: the write
queue (`_writebuf`, pairs of byte and the *enqueuing* side's baud rate),
`_writelast` (time of the previous emitted write) and this endpoint's own
termios-detected baud rate (`_detect_baudrate` samples the kernel; the
last sampled value is a field, fresh samples are passed as arguments).
Wall-clock seconds are modelled as `Rat`. -/

structure SerialPty where
  writebuf : List (Nat × Nat)
  writelast : Rat
  baudrate : Nat
deriving DecidableEq, Repr

/-- `bits_per_byte` property: 1 start + 7 data + 1 parity + 1 stop. -/

def SerialPty.bits_per_byte : Nat := 1 + 7 + 1 + 1

/-- `time_per_byte` property: `1.0 / self.baudrate * self.bits_per_byte` —
computed from *this* endpoint's detected baud. -/

def SerialPty.time_per_byte (s : SerialPty) : Rat :=
  1 / (s.baudrate : Rat) * (SerialPty.bits_per_byte : Rat)

/-- `SerialPty.write_byte(byte, baudrate)`: append to the queue; the
returned flag says whether a write was scheduled (only when the appended
entry is the first in the queue). -/

def SerialPty.write_byte (s : SerialPty) (byte baudrate : Nat) :
    SerialPty × Bool :=
  let s2 := { s with writebuf := s.writebuf ++ [(byte, baudrate)] }
  (s2, s2.writebuf.length = 1)

/-- `SerialProxy._reader` forwarding step:
`peer_pty.write_byte(byte, pty.baudrate)` — the byte is enqueued on the
destination together with the *source* endpoint's baud. -/

def proxy_forward (src dest : SerialPty) (byte : Nat) : SerialPty × Bool :=
  dest.write_byte byte src.baudrate

/-- `_schedule_write_after_baudrate_delay`: the absolute time at which the
scheduled `_background_write` callback fires — `call_soon` (now) when
`writelast + time_per_byte` has already passed, otherwise `call_later`
with the remaining delay.  The delay comes from *this* endpoint's
`time_per_byte`, i.e. the destination side's baud. -/

def SerialPty.scheduled_fire_time (s : SerialPty) (now : Rat) : Rat :=
  let tnext := s.writelast + s.time_per_byte
  let tdelay := tnext - now
  if tdelay ≤ 0 then now else now + tdelay

/-- `_background_write` running at time `now`, with `detected` the freshly
sampled termios baud of this endpoint: pops the head
`(byte, peer_baudrate)`, flags (logs) a mismatch when `peer_baudrate`
differs from the detected baud, emits the byte unchanged and records
`_writelast`.  Returns `(emitted byte, mismatch logged, new state)`;
`none` models the `assert self._writebuf` failure on an empty queue. -/

def SerialPty.background_write (s : SerialPty) (detected : Nat)
    (now : Rat) : Option (Nat × Bool × SerialPty) :=
  let s2 := { s with baudrate := detected }
  match s2.writebuf with
  | [] => none
  | (byte, peer_baudrate) :: rest =>
      some (byte, decide (peer_baudrate ≠ s2.baudrate),
        { s2 with writebuf := rest, writelast := now })

/-! ## Theorems -/

/-! ### Loop lemmas for the BCC codec -/

theorem getLast?_cons_eq_or (b : Nat) (l : List Nat) :
    (b :: l).getLast? = l.getLast?.or (some b) := by
  cases l with
  | nil => rfl
  | cons c t =>
    rw [List.getLast?_cons_cons]
    cases h : (c :: t).getLast? with
    | none => simp [List.getLast?] at h
    | some x => rfl

theorem or_some_or (x : Option Nat) (b : Nat) (ch : Option Nat) :
    (x.or (some b)).or ch = x.or (some b) := by
  cases x <;> rfl

theorem xorAll_eq (l : List Nat) : ∀ (cnt bcc : Nat) (ch : Option Nat),
    xorAll cnt bcc ch l =
      (cnt + l.length, l.foldl (· ^^^ ·) bcc, l.getLast?.or ch) := by
  induction l with
  | nil => intro cnt bcc ch; simp [xorAll]
  | cons b rest ih =>
    intro cnt bcc ch
    rw [xorAll, ih, getLast?_cons_eq_or, or_some_or]
    simp only [List.length_cons, List.foldl_cons, Prod.mk.injEq]
    refine ⟨by omega, trivial⟩

theorem xorToCloser_closer_free (payload : List Nat)
    (hpl : ∀ b ∈ payload, isCloser b = false) :
    ∀ (cnt bcc : Nat) (ch : Option Nat) (c : Nat) (rest : List Nat),
    isCloser c = true →
    xorToCloser cnt bcc ch (payload ++ c :: rest) =
      (cnt + payload.length + 1, payload.foldl (· ^^^ ·) bcc ^^^ c,
        some c, rest) := by
  induction payload with
  | nil => intro cnt bcc ch c rest hc; simp [xorToCloser, hc]
  | cons b tl ih =>
    intro cnt bcc ch c rest hc
    have hb : isCloser b = false := hpl b (by simp)
    have htl : ∀ x ∈ tl, isCloser x = false := fun x hx => hpl x (by simp [hx])
    have h1 : xorToCloser cnt bcc ch ((b :: tl) ++ c :: rest)
        = xorToCloser (cnt + 1) (bcc ^^^ b) (some b) (tl ++ c :: rest) := by
      simp [xorToCloser, hb]
    rw [h1, ih htl (cnt + 1) (bcc ^^^ b) (some b) c rest hc]
    simp only [List.length_cons, List.foldl_cons, Prod.mk.injEq]
    refine ⟨by omega, trivial⟩

/-- Composite of the two `append_bcc` loops: the count always ends at
`cnt + bstr.length` (both loops together consume every byte) and the final
`ch` is the last byte of `bstr` (or the incoming `ch` when `bstr` is empty). -/

theorem append_loops_eq (bstr : List Nat) : ∀ (cnt bcc : Nat) (ch : Option Nat),
    (xorAll (scanToOpener cnt ch bstr).1 bcc (scanToOpener cnt ch bstr).2.1
        (scanToOpener cnt ch bstr).2.2).1 = cnt + bstr.length ∧
    (xorAll (scanToOpener cnt ch bstr).1 bcc (scanToOpener cnt ch bstr).2.1
        (scanToOpener cnt ch bstr).2.2).2.2 = bstr.getLast?.or ch := by
  induction bstr with
  | nil => intro cnt bcc ch; simp [scanToOpener, xorAll]
  | cons b rest ih =>
    intro cnt bcc ch
    cases hb : isOpener b
    case true =>
      have h1 : scanToOpener cnt ch (b :: rest) = (cnt + 1, some b, rest) := by
        simp [scanToOpener, hb]
      rw [h1, xorAll_eq]
      refine ⟨by simp only [List.length_cons]; omega, ?_⟩
      rw [getLast?_cons_eq_or, or_some_or]
    case false =>
      have h1 : scanToOpener cnt ch (b :: rest)
          = scanToOpener (cnt + 1) (some b) rest := by
        simp [scanToOpener, hb]
      rw [h1]
      refine ⟨?_, ?_⟩
      · rw [(ih (cnt + 1) bcc (some b)).1]
        simp only [List.length_cons]; omega
      · rw [(ih (cnt + 1) bcc (some b)).2, getLast?_cons_eq_or, or_some_or]

/-- `append_bcc` succeeds or fails depending only on the last byte: both
loops together always consume the whole string, so `cnt != len(bstr)` never
fires, and the final `ch` is the last byte of the string. -/

theorem append_bcc_none_iff (bstr : List Nat) :
    append_bcc bstr = none ↔ chIsCloser bstr.getLast? = false := by
  obtain ⟨h1, h2⟩ := append_loops_eq bstr 0 0 none
  have hor : bstr.getLast?.or none = bstr.getLast? := by
    cases bstr.getLast? <;> rfl
  rw [hor] at h2
  simp only [append_bcc, h1, h2]
  cases hch : chIsCloser bstr.getLast? <;> simp [hch]

/-! ### Claim C1 -/

/-- C1: for every well-formed frame `f` — exactly one OPENER byte
(SOH or STX) followed by payload bytes that are neither openers nor
closers, ending in exactly one CLOSER byte (ETX or EOT) as the final
byte — `check_bcc (append_bcc f)` succeeds. -/

theorem c1_check_append_bcc_roundtrip (opener closer : Nat)
    (payload : List Nat)
    (hop : isOpener opener = true) (hcl : isCloser closer = true)
    (hpay : ∀ b ∈ payload, isOpener b = false ∧ isCloser b = false) :
    bccRoundTrip (opener :: (payload ++ [closer])) = some (.ok ()) := by
  have hscan : scanToOpener 0 none (opener :: (payload ++ [closer]))
      = (0 + 1, some opener, payload ++ [closer]) := by
    simp [scanToOpener, hop]
  have hget : (payload ++ [closer]).getLast? = some closer := by simp
  have happ : append_bcc (opener :: (payload ++ [closer]))
      = some ((opener :: (payload ++ [closer]))
          ++ [(payload ++ [closer]).foldl (· ^^^ ·) 0]) := by
    simp only [append_bcc, hscan, xorAll_eq, hget]
    simp [chIsCloser, hcl]
    omega
  have hassoc : (opener :: (payload ++ [closer]))
      ++ [(payload ++ [closer]).foldl (· ^^^ ·) 0]
      = opener :: (payload ++ closer ::
          [(payload ++ [closer]).foldl (· ^^^ ·) 0]) := by
    simp
  have hscan2 : scanToOpener 0 none (opener :: (payload ++ closer ::
      [(payload ++ [closer]).foldl (· ^^^ ·) 0]))
      = (0 + 1, some opener, payload ++ closer ::
          [(payload ++ [closer]).foldl (· ^^^ ·) 0]) := by
    simp [scanToOpener, hop]
  have hfold : (payload ++ [closer]).foldl (· ^^^ ·) 0
      = payload.foldl (· ^^^ ·) 0 ^^^ closer := by
    rw [List.foldl_append]
    rfl
  have hchk : check_bcc (opener :: (payload ++ closer ::
      [(payload ++ [closer]).foldl (· ^^^ ·) 0])) = .ok () := by
    simp only [check_bcc, hscan2,
      xorToCloser_closer_free payload (fun b hb => (hpay b hb).2)
        (0 + 1) 0 (some opener) closer _ hcl]
    simp [chIsCloser, hcl, hfold]
    omega
  rw [bccRoundTrip, happ, hassoc]
  simpa [hfold] using hchk

/-- Witness for C1 at the frame `SOH "B0" ETX` (the break command, whose
BCC is 0x71 = 'q' from the repository's own tests). -/

theorem c1_check_append_bcc_roundtrip_witness :
    bccRoundTrip [1, 66, 48, 3] = some (.ok ()) :=
  c1_check_append_bcc_roundtrip 1 3 [66, 48] (by decide) (by decide)
    (by decide)

/-! ### Claim C5 -/

/-- C5 counterexample: the claim says `append_bcc` fails on every input
violating the frame precondition, in particular on inputs with more than
one OPENER or with no OPENER at all.  `[SOH, SOH, ETX]` has two openers and
`[97, 98, ETX]` has none; both violate the precondition, yet `append_bcc`
succeeds on each (the `cnt != len(bstr)` test in the source can never fire
because both loops together always consume the whole string). -/

theorem c5_append_bcc_counterexample :
    append_bcc [1, 1, 3] = some [1, 1, 3, 2] ∧
    append_bcc [97, 98, 3] = some [97, 98, 3, 0] := by
  constructor <;> rfl

/-- C5 amended: `append_bcc` fails exactly when the input is empty or its
final byte is not ETX/EOT (so a trailing extra byte or a removed CLOSER is
rejected), but missing or duplicated OPENER bytes are not detected. -/

theorem c5_append_bcc_fail_iff (bstr : List Nat) :
    append_bcc bstr = none ↔ chIsCloser bstr.getLast? = false :=
  append_bcc_none_iff bstr

theorem reset_preserves (g : WattGauge) :
    g.reset.tlast = g.tlast ∧ g.reset.t2 = g.t2 ∧ g.reset.p2 = g.p2 ∧
    g.reset.data_valid = g.data_valid := by
  unfold WattGauge.reset
  split <;> simp

theorem reset_ringOrdered {g : WattGauge} (h : g.ringOrdered) :
    g.reset.ringOrdered := by
  unfold WattGauge.ringOrdered WattGauge.reset at *
  split <;> simp_all

theorem ringAdvance_props {g : WattGauge} {t p : Int} (h : g.ringOrdered)
    (ht2 : g.t2 ≤ t) (hp2 : g.p2 ≤ p) (htl : g.tlast = t) :
    (g.ringAdvance t p).ringOrdered ∧
    (g.ringAdvance t p).tlast = t ∧ (g.ringAdvance t p).p2 = p ∧
    (g.ringAdvance t p).data_valid = g.data_valid := by
  unfold WattGauge.ringOrdered WattGauge.ringAdvance at *
  split <;> simp_all <;> omega

theorem recalc_props (g : WattGauge) :
    (g.recalculate_if_sensible).t0 = g.t0 ∧
    (g.recalculate_if_sensible).t1 = g.t1 ∧
    (g.recalculate_if_sensible).t2 = g.t2 ∧
    (g.recalculate_if_sensible).p0 = g.p0 ∧
    (g.recalculate_if_sensible).p1 = g.p1 ∧
    (g.recalculate_if_sensible).p2 = g.p2 ∧
    (g.recalculate_if_sensible).tlast = g.tlast ∧
    (g.recalculate_if_sensible).data_valid = g.data_valid := by
  unfold WattGauge.recalculate_if_sensible
  split_ifs <;> simp

theorem recalc_ringOrdered {g : WattGauge} (h : g.ringOrdered) :
    (g.recalculate_if_sensible).ringOrdered := by
  unfold WattGauge.ringOrdered at *
  obtain ⟨a, b, c, d, e⟩ := recalc_props g
  simp_all

theorem set_eq_invalid {g : WattGauge} (t p : Int)
    (hv : g.data_valid = false) :
    g.set_active_energy_total t p =
      { g with t0 := t, t1 := t, t2 := t, p0 := p, p1 := p, p2 := p,
               tlast := t, watt := 0, data_valid := true } := by
  simp [WattGauge.set_active_energy_total, hv]

theorem set_eq_nochange_fast {g : WattGauge} {t p : Int}
    (hv : g.data_valid = true) (hpe : p = g.p2)
    (h30 : ¬(t - g.t2 > 30000)) :
    g.set_active_energy_total t p = { g with tlast := t } := by
  simp [WattGauge.set_active_energy_total, hv, hpe, h30]

theorem set_eq_nochange_slow {g : WattGauge} {t p : Int}
    (hv : g.data_valid = true) (hpe : p = g.p2)
    (h30 : t - g.t2 > 30000) :
    g.set_active_energy_total t p =
      (if Int.fdiv (1000 * 3600) (t - g.t2) < g.watt then
        { g with tlast := t, watt := Int.fdiv (1000 * 3600) (t - g.t2) }
      else { g with tlast := t }) := by
  simp [WattGauge.set_active_energy_total, hv, hpe, h30]

theorem set_eq_change {g : WattGauge} {t p : Int}
    (hv : g.data_valid = true) (hpe : ¬(p = g.p2)) :
    g.set_active_energy_total t p =
      (if (({ g with tlast := t } : WattGauge).ringAdvance t p).spikeCondition
        then (({ g with tlast := t } : WattGauge).ringAdvance t p).reset
        else ({ g with tlast := t } : WattGauge).ringAdvance t p
        ).recalculate_if_sensible := by
  simp [WattGauge.set_active_energy_total, hv, hpe]

theorem set_ringOrdered {g : WattGauge} {t p : Int} (h : g.ringOrdered)
    (ht : g.data_valid = true → g.tlast ≤ t)
    (hp : g.data_valid = true → g.p2 ≤ p) :
    (g.set_active_energy_total t p).ringOrdered ∧
    (g.set_active_energy_total t p).tlast = t ∧
    (g.set_active_energy_total t p).p2 = p ∧
    (g.set_active_energy_total t p).data_valid = true := by
  obtain ⟨h1, h2, h3, h4, h5⟩ := h
  cases hv : g.data_valid with
  | false =>
    rw [set_eq_invalid t p hv]
    exact ⟨⟨le_refl t, le_refl t, le_refl t, le_refl p, le_refl p⟩,
      rfl, rfl, rfl⟩
  | true =>
    have ht' := ht hv
    have hp' := hp hv
    by_cases hpe : p = g.p2
    · by_cases h30 : t - g.t2 > 30000
      · rw [set_eq_nochange_slow hv hpe h30]
        split_ifs <;>
          exact ⟨⟨h1, h2, by show g.t2 ≤ t; omega, h4, h5⟩, rfl,
            by show g.p2 = p; omega, hv⟩
      · rw [set_eq_nochange_fast hv hpe h30]
        exact ⟨⟨h1, h2, by show g.t2 ≤ t; omega, h4, h5⟩, rfl,
          by show g.p2 = p; omega, hv⟩
    · rw [set_eq_change hv hpe]
      have hra := ringAdvance_props (g := { g with tlast := t }) (t := t)
        (p := p) ⟨h1, h2, le_trans h3 ht', h4, h5⟩
        (le_trans h3 ht') hp' rfl
      set ga := ({ g with tlast := t } : WattGauge).ringAdvance t p with hga
      obtain ⟨hraO, hraT, hraP, hraV⟩ := hra
      by_cases hs : ga.spikeCondition = true
      · rw [if_pos hs]
        obtain ⟨r1, r2, r3, r4⟩ := reset_preserves ga
        obtain ⟨c1, c2, c3, c4, c5, c6, c7, c8⟩ := recalc_props ga.reset
        refine ⟨recalc_ringOrdered (reset_ringOrdered hraO), ?_, ?_, ?_⟩
        · rw [c7, r1, hraT]
        · rw [c6, r3, hraP]
        · rw [c8, r4, hraV]; exact hv
      · rw [if_neg hs]
        obtain ⟨c1, c2, c3, c4, c5, c6, c7, c8⟩ := recalc_props ga
        refine ⟨recalc_ringOrdered hraO, ?_, ?_, ?_⟩
        · rw [c7, hraT]
        · rw [c6, hraP]
        · rw [c8, hraV]; exact hv

theorem legalFrom_take (ops : List GaugeOp) :
    ∀ (prev : Option (Int × Int)) (n : Nat),
    legalFrom prev ops = true → legalFrom prev (ops.take n) = true := by
  induction ops with
  | nil => intro prev n _; simp [legalFrom]
  | cons op rest ih =>
    intro prev n hl
    cases n with
    | zero => simp [legalFrom]
    | succ m =>
      rw [List.take_succ_cons]
      cases op with
      | reset =>
        cases prev with
        | none => exact ih none m hl
        | some tp => exact ih (some tp) m hl
      | sample t p =>
        cases prev with
        | none => exact ih (some (t, p)) m hl
        | some tp =>
          rw [legalFrom] at hl ⊢
          simp only [Bool.and_eq_true] at hl ⊢
          exact ⟨hl.1, ih (some (t, p)) m hl.2⟩

theorem runOps_ringOrdered (ops : List GaugeOp) :
    ∀ (g : WattGauge) (prev : Option (Int × Int)),
    legalFrom prev ops = true →
    g.ringOrdered →
    (g.data_valid = true → prev = some (g.tlast, g.p2)) →
    (g.runOps ops).ringOrdered := by
  induction ops with
  | nil => intro g prev _ h _; exact h
  | cons op rest ih =>
    intro g prev hl h hcorr
    cases op with
    | reset =>
      rw [WattGauge.runOps]
      obtain ⟨r1, r2, r3, r4⟩ := reset_preserves g
      refine ih g.reset prev ?_ (reset_ringOrdered h) ?_
      · cases prev with
        | none => exact hl
        | some tp => exact hl
      · intro hv
        rw [r4] at hv
        rw [r1, r3]
        exact hcorr hv
    | sample t p =>
      rw [WattGauge.runOps]
      cases hv : g.data_valid with
      | false =>
        obtain ⟨hO, hT, hP, hV⟩ := set_ringOrdered h
          (fun hx => absurd (hv ▸ hx) (by simp))
          (fun hx => absurd (hv ▸ hx) (by simp))
        refine ih _ (some (t, p)) ?_ hO ?_
        · cases prev with
          | none => exact hl
          | some tp =>
            rw [legalFrom] at hl
            simp only [Bool.and_eq_true] at hl
            exact hl.2
        · intro _; rw [hT, hP]
      | true =>
        have hprev := hcorr hv
        subst hprev
        rw [legalFrom] at hl
        simp only [Bool.and_eq_true, decide_eq_true_eq] at hl
        obtain ⟨⟨hlt, hlp⟩, hl2⟩ := hl
        obtain ⟨hO, hT, hP, hV⟩ := set_ringOrdered h
          (fun _ => hlt) (fun _ => hlp)
        refine ih _ (some (t, p)) hl2 hO ?_
        intro _; rw [hT, hP]

theorem c2_ring_ordering_invariant (ops : List GaugeOp) (hl : legalFrom none ops = true)
    (n : Nat) : (WattGauge.init.runOps (ops.take n)).ringOrdered := by
  refine runOps_ringOrdered (ops.take n) WattGauge.init none
    (legalFrom_take ops none n hl) ?_ ?_
  · exact ⟨le_refl 0, le_refl 0, le_refl 0, le_refl 0, le_refl 0⟩
  · intro hv; simp [WattGauge.init] at hv

theorem c2_ring_ordering_invariant_witness :
    legalFrom none
      [GaugeOp.sample 0 0, GaugeOp.sample 120000 1, GaugeOp.reset,
        GaugeOp.sample 122000 10] = true ∧
    (WattGauge.init.runOps
      ([GaugeOp.sample 0 0, GaugeOp.sample 120000 1, GaugeOp.reset,
        GaugeOp.sample 122000 10].take 3)).ringOrdered :=
  ⟨by decide, c2_ring_ordering_invariant _ (by decide) 3⟩

/-! ### Claim C6 -/

/-- C6: `EnergyGauge.has_significant_change` agrees with the spec's case
analysis: sign flip → true; `wprev = 0` with `|watt| < 20` → false;
`wprev = 0` otherwise → true; in all remaining cases true iff the ratio
`watt / wprev` lies outside the open interval (0.6, 1.6). -/

theorem c6_has_significant_change_spec (eg : EnergyGauge) :
    eg.has_significant_change =
      sigChangeSpecRule eg.wprev eg.get_instantaneous_power := by
  have hW : eg.has_significant_change =
      (if (eg.wprev < 0 ∧ eg.get_instantaneous_power > 0) ∨
          (eg.get_instantaneous_power < 0 ∧ eg.wprev > 0) then true
        else if eg.wprev = 0 ∧ (-20 < eg.get_instantaneous_power ∧
            eg.get_instantaneous_power < 20) then false
        else if eg.wprev = 0 then true
        else if (0.6 : Rat) < (eg.get_instantaneous_power : Rat) /
              (eg.wprev : Rat) ∧
            (eg.get_instantaneous_power : Rat) / (eg.wprev : Rat) <
              (1.6 : Rat) then false
        else true) := rfl
  rw [hW]
  unfold sigChangeSpecRule
  by_cases h1 : (eg.wprev < 0 ∧ eg.get_instantaneous_power > 0) ∨
      (eg.get_instantaneous_power < 0 ∧ eg.wprev > 0)
  · have h1s : (eg.wprev < 0 ∧ eg.get_instantaneous_power > 0) ∨
        (eg.wprev > 0 ∧ eg.get_instantaneous_power < 0) := by tauto
    rw [if_pos h1, if_pos h1s]
  · have h1s : ¬((eg.wprev < 0 ∧ eg.get_instantaneous_power > 0) ∨
        (eg.wprev > 0 ∧ eg.get_instantaneous_power < 0)) := by tauto
    rw [if_neg h1, if_neg h1s]
    by_cases h2 : eg.wprev = 0
    · by_cases h3 : -20 < eg.get_instantaneous_power ∧
          eg.get_instantaneous_power < 20
      · rw [if_pos ⟨h2, h3⟩, if_pos ⟨h2, abs_lt.mpr h3⟩]
      · have h3s : ¬(eg.wprev = 0 ∧ |eg.get_instantaneous_power| < 20) :=
          fun hc => h3 (abs_lt.mp hc.2)
        rw [if_neg (fun hc => h3 hc.2), if_neg h3s, if_pos h2, if_pos h2]
    · have h2c : ¬(eg.wprev = 0 ∧ (-20 < eg.get_instantaneous_power ∧
          eg.get_instantaneous_power < 20)) := fun hc => h2 hc.1
      have h2s : ¬(eg.wprev = 0 ∧ |eg.get_instantaneous_power| < 20) :=
        fun hc => h2 hc.1
      rw [if_neg h2c, if_neg h2s, if_neg h2, if_neg h2]
      by_cases h4 : (0.6 : Rat) < (eg.get_instantaneous_power : Rat) /
            (eg.wprev : Rat) ∧
          (eg.get_instantaneous_power : Rat) / (eg.wprev : Rat) < (1.6 : Rat)
      · rw [if_pos h4]
        simp [h4]
      · rw [if_neg h4]
        simp [h4]

/-! ### Claim C9 -/

/-- C9: before the first successful publish (`_last_publish` absent) the
elapsed-time baseline is the constant 30 s, so `is_time_to_publish` returns
true iff the gauge reports a significant change — 30 < 120 and 30 < 60, so
the two time-based triggers can never fire the very first publish. -/

theorem c9_first_publish_significant_change_only
    (now_s : Int) (gauge : EnergyGauge) :
    is_time_to_publish none now_s gauge = gauge.has_significant_change := by
  unfold is_time_to_publish
  simp

/-! ### Claim C10 -/

/-- C10: `EnergyGauge.get_instantaneous_power` breaks ties toward the
negative gauge: the positive gauge's watt is returned only when the
positive interval-since-last-change is strictly smaller; otherwise — in
particular when the intervals are equal, as on a fresh `EnergyGauge` — the
negated negative watt is returned, which is 0 on a fresh gauge. -/

theorem c10_power_tie_breaking :
    (∀ eg : EnergyGauge,
      ¬(eg.positive.interval_since_last_change <
          eg.negative.interval_since_last_change) →
      eg.get_instantaneous_power =
        - eg.negative.get_instantaneous_power) ∧
    (∀ eg : EnergyGauge,
      eg.positive.interval_since_last_change <
          eg.negative.interval_since_last_change →
      eg.get_instantaneous_power = eg.positive.get_instantaneous_power) ∧
    EnergyGauge.init.positive.interval_since_last_change =
      EnergyGauge.init.negative.interval_since_last_change ∧
    EnergyGauge.init.get_instantaneous_power = 0 := by
  refine ⟨?_, ?_, rfl, rfl⟩
  · intro eg h
    unfold EnergyGauge.get_instantaneous_power
    rw [if_neg h]
  · intro eg h
    unfold EnergyGauge.get_instantaneous_power
    rw [if_pos h]

/-- Witness for C10 on the freshly constructed gauge. -/

theorem c10_power_tie_breaking_witness :
    ¬(EnergyGauge.init.positive.interval_since_last_change <
        EnergyGauge.init.negative.interval_since_last_change) ∧
    EnergyGauge.init.get_instantaneous_power =
      - EnergyGauge.init.negative.get_instantaneous_power :=
  ⟨by decide, c10_power_tie_breaking.1 EnergyGauge.init (by decide)⟩

/-! ### Claim C3 -/

/-- C3 counterexample: after feeding a fresh `WattGauge` the samples
`(0 ms, 0 Wh)`, `(120000 ms, 1 Wh)`, `(122000 ms, 10 Wh)`,
`get_instantaneous_power()` returns 0 and not the claimed recent rate of
9 Wh over 2 s (= 16200 W): after the internal spike `reset()` the
remaining window (2 s, 9 Wh) satisfies none of the "enough values"
thresholds, so `_watt` is left at its previous value 0. -/

theorem c3_spike_power_counterexample :
    (((WattGauge.init.set_active_energy_total 0 0
        ).set_active_energy_total 120000 1
        ).set_active_energy_total 122000 10).get_instantaneous_power = 0 ∧
    (0 : Int) ≠ Int.fdiv (9 * 1000 * 3600) 2000 := by
  exact ⟨by decide, by decide⟩

/-- C3 amended: on the third sample the spike heuristic does fire
(`t1-t0 > 60 s`, `p1-p0 ≤ 1`, `t2-t1 < 15 s` hold after the ring advance),
so `reset()` is invoked internally and the call reduces to
`reset` followed by `_recalculate_if_sensible`; but the post-spike
`get_instantaneous_power()` is 0, not ≈16200 W, because the collapsed
window is below every recalculation threshold. -/

theorem c3_spike_reset_behaviour :
    ((({ (WattGauge.init.set_active_energy_total 0 0
        ).set_active_energy_total 120000 1 with
        tlast := 122000 } : WattGauge).ringAdvance 122000 10
        ).spikeCondition = true) ∧
    (((WattGauge.init.set_active_energy_total 0 0
        ).set_active_energy_total 120000 1
        ).set_active_energy_total 122000 10
      = ((({ (WattGauge.init.set_active_energy_total 0 0
          ).set_active_energy_total 120000 1 with
          tlast := 122000 } : WattGauge).ringAdvance 122000 10
          ).reset).recalculate_if_sensible) ∧
    (((WattGauge.init.set_active_energy_total 0 0
        ).set_active_energy_total 120000 1
        ).set_active_energy_total 122000 10).get_instantaneous_power = 0 := by
  refine ⟨by decide, by decide, by decide⟩

/-! ### Claim C7 -/

/-- C7 counterexample: the claim makes `from_code` return an
instantaneous-power variant for every E when C ∈ {1,2,15,16} and D = 7,
but for the parseable code "1.7.1" (E = 1) the call fails with an
`AssertionError` (from `assert self.d == 7 and self.e == 0` in
`InstantaneousPowerElectricityObis.__init__`) — neither a variant nor
`UnsupportedObis`. -/

theorem c7_from_code_counterexample :
    parseObisCode (obisNormalize "1.7.1".toList) =
      some ⟨.num 1, .num 7, 1, none⟩ ∧
    from_code "1.7.1".toList = .error .assertionError := by
  constructor <;> decide

/-- C7 amended: classification of `from_code`.  Active-energy (unit Wh)
for parseable codes with C ∈ {1,2,15,16}, D = 8 (any E, any F);
instantaneous-power (unit W) for C ∈ {1,2,15,16}, D = 7 only when E = 0
(any F), while E ≠ 0 fails with `AssertionError`; a misc variant for codes
with no F group and C = 0 or normalised code in {"C.1.0", "F.F.0"}
("F.F" is normalised to "F.F.0"); everything else — unparseable codes
included — fails with `UnsupportedObis`. -/

theorem c7_from_code_classification :
    (∀ code p, parseObisCode (obisNormalize code) = some p →
      isEnergyC p.c = true → p.d = .num 8 →
      from_code code = .ok (.activeEnergy p.c p.d p.e p.f) ∧
      unitOf (.activeEnergy p.c p.d p.e p.f) = some "Wh".toList) ∧
    (∀ code p, parseObisCode (obisNormalize code) = some p →
      isEnergyC p.c = true → p.d = .num 7 → p.e = 0 →
      from_code code = .ok (.instPower p.c p.d p.e p.f) ∧
      unitOf (.instPower p.c p.d p.e p.f) = some "W".toList) ∧
    (∀ code p, parseObisCode (obisNormalize code) = some p →
      isEnergyC p.c = true → p.d = .num 7 → ¬(p.e = 0) →
      from_code code = .error .assertionError) ∧
    (∀ code p, parseObisCode (obisNormalize code) = some p →
      p.f = none →
      (p.c = .num 0 ∨ obisNormalize code = "C.1.0".toList ∨
        obisNormalize code = "F.F.0".toList) →
      from_code code = .ok (.misc p.c p.d p.e p.f)) ∧
    (∀ code, parseObisCode (obisNormalize code) = none →
      from_code code = .error .unsupportedObis) ∧
    (∀ code p, parseObisCode (obisNormalize code) = some p →
      ¬(isEnergyC p.c = true ∧ (p.d = .num 8 ∨ p.d = .num 7)) →
      ¬(p.f = none ∧ (p.c = .num 0 ∨ obisNormalize code = "C.1.0".toList ∨
        obisNormalize code = "F.F.0".toList)) →
      from_code code = .error .unsupportedObis) := by
  refine ⟨?_, ?_, ?_, ?_, ?_, ?_⟩
  · intro code p hp hc hd
    unfold from_code
    dsimp only
    rw [hp]
    dsimp only
    rw [if_pos ⟨hc, hd⟩]
    exact ⟨rfl, rfl⟩
  · intro code p hp hc hd he
    unfold from_code
    dsimp only
    rw [hp]
    dsimp only
    rw [if_neg (fun hx => by rw [hd] at hx; exact absurd hx.2 (by decide)),
      if_pos ⟨hc, hd⟩, if_pos he]
    exact ⟨rfl, rfl⟩
  · intro code p hp hc hd he
    unfold from_code
    dsimp only
    rw [hp]
    dsimp only
    rw [if_neg (fun hx => by rw [hd] at hx; exact absurd hx.2 (by decide)),
      if_pos ⟨hc, hd⟩, if_neg he]
  · intro code p hp hf hmisc
    have hce : isEnergyC p.c = false := by
      rcases hmisc with h0 | hn | hn
      · rw [h0]; decide
      · rw [hn] at hp
        have : p = ⟨.str ['C'], .num 1, 0, none⟩ := by
          have hv : parseObisCode "C.1.0".toList =
            some ⟨.str ['C'], .num 1, 0, none⟩ := by decide
          rw [hv] at hp; exact (Option.some_inj.mp hp).symm
        rw [this]; decide
      · rw [hn] at hp
        have : p = ⟨.str ['F'], .str ['F'], 0, none⟩ := by
          have hv : parseObisCode "F.F.0".toList =
            some ⟨.str ['F'], .str ['F'], 0, none⟩ := by decide
          rw [hv] at hp; exact (Option.some_inj.mp hp).symm
        rw [this]; decide
    unfold from_code
    dsimp only
    rw [hp]
    dsimp only
    rw [if_neg (fun hx => by rw [hce] at hx; exact absurd hx.1 (by decide)),
      if_neg (fun hx => by rw [hce] at hx; exact absurd hx.1 (by decide)),
      if_pos ⟨hf, hmisc⟩]
  · intro code hp
    unfold from_code
    dsimp only
    rw [hp]
  · intro code p hp hen hm
    unfold from_code
    dsimp only
    rw [hp]
    dsimp only
    rw [if_neg (fun hx => hen ⟨hx.1, Or.inl hx.2⟩),
      if_neg (fun hx => hen ⟨hx.1, Or.inr hx.2⟩), if_neg hm]

/-- Witness for C7 at the code "1.8.0". -/

theorem c7_from_code_classification_witness :
    from_code "1.8.0".toList =
      .ok (.activeEnergy (.num 1) (.num 8) 0 none) ∧
    unitOf (.activeEnergy (.num 1) (.num 8) 0 none) = some "Wh".toList :=
  c7_from_code_classification.1 "1.8.0".toList ⟨.num 1, .num 8, 0, none⟩ (by decide)
    (by decide) rfl

/-! ### Claim C4 -/

/-- C4: the claim says that in R_ACK_PROG_MODE / R_READ_OBIS a complete
frame with a bad trailing BCC makes the client reply NAK and stay in the
same state.  The code instead reaches `assert False, 'en nu??'` and the
client coroutine crashes with `AssertionError`; the NAK reply is only an
unimplemented `XXX` comment.  Evaluated on the programming-mode frame
`STX ( ) ETX` whose correct BCC 2 was corrupted to 0. -/

theorem c4_bcc_mismatch_crashes :
    check_bcc [2, 40, 41, 3, 0] = .error .bccMismatch ∧
    recv_datamessage_postcheck [2, 40, 41, 3, 0] = .assertionFailure ∧
    recv_datamessage_postcheck [2, 40, 41, 3, 2] =
      .okFrame [2, 40, 41, 3, 2] := by
  refine ⟨by decide, by decide, by decide⟩

/-! ### Claim C8 -/

/-- C8 counterexample: the claim says the delayed write callback fires
`bits_per_byte / source_baud` seconds after the previous write.  For a
byte enqueued with source baud 300 on a destination endpoint whose own
detected baud is 9600 (previous write at time 0, now = 0), the callback is
scheduled for time 10/9600 = 1/960 — computed from the destination's baud
— and not 10/300. -/

theorem c8_baud_delay_counterexample :
    SerialPty.scheduled_fire_time ⟨[(65, 300)], 0, 9600⟩ 0 = 1 / 960 ∧
    ¬((1 / 960 : Rat) = (SerialPty.bits_per_byte : Rat) / 300) := by
  constructor
  · norm_num [SerialPty.scheduled_fire_time, SerialPty.time_per_byte,
      SerialPty.bits_per_byte]
  · norm_num [SerialPty.bits_per_byte]

/-- C8 amended: each written byte is enqueued together with the *source*
side's current baud; the delayed write callback fires at
`previous-write-time + bits_per_byte / destination_baud` (the destination
endpoint's own detected baud, not the enqueued source baud), or
immediately when that moment has already passed; at emission the byte is
forwarded unchanged even when the freshly sampled destination baud differs
from the enqueued source baud (the mismatch is only logged);
`bits_per_byte` is fixed at 10. -/

theorem c8_baud_emulation :
    (∀ (src dest : SerialPty) (byte : Nat),
      (proxy_forward src dest byte).1.writebuf =
        dest.writebuf ++ [(byte, src.baudrate)]) ∧
    (∀ (s : SerialPty) (now : Rat),
      s.scheduled_fire_time now =
        max now (s.writelast +
          (SerialPty.bits_per_byte : Rat) / (s.baudrate : Rat))) ∧
    (∀ (s : SerialPty) (detected : Nat) (now : Rat) (byte peer_baud : Nat)
        (rest : List (Nat × Nat)),
      s.writebuf = (byte, peer_baud) :: rest →
      s.background_write detected now =
        some (byte, decide (¬(peer_baud = detected)),
          { writebuf := rest, writelast := now, baudrate := detected })) ∧
    SerialPty.bits_per_byte = 10 := by
  refine ⟨?_, ?_, ?_, rfl⟩
  · intro src dest byte
    rfl
  · intro s now
    have hq : (1 : Rat) / (s.baudrate : Rat) *
        (SerialPty.bits_per_byte : Rat) =
        (SerialPty.bits_per_byte : Rat) / (s.baudrate : Rat) := by ring
    unfold SerialPty.scheduled_fire_time SerialPty.time_per_byte
    dsimp only
    rw [hq]
    split_ifs with h
    · rw [max_eq_left (by linarith)]
    · rw [max_eq_right (by linarith)]
      ring
  · intro s detected now byte peer_baud rest hbuf
    unfold SerialPty.background_write
    dsimp only
    rw [hbuf]

/-- Witness for C8's emission clause at a concrete queue. -/

theorem c8_baud_emulation_witness :
    (⟨[(65, 300)], 0, 9600⟩ : SerialPty).background_write 9600 5 =
      some (65, true, ⟨[], 5, 9600⟩) :=
  c8_baud_emulation.2.2.1 ⟨[(65, 300)], 0, 9600⟩ 9600 5 65 300 [] rfl

end Pe32

